import Mathlib

/-!
Shallow embedding of `src/occurrences.py` ("Count Occurrences", counts
occurrences of duplicated words over multiple documents).

Modelling conventions:
* Python strings are Lean `String`s; the analysed texts are ASCII, so
  `\w` of the `re` module is modelled as ASCII letters, digits and `_`.
* A Python `dict` is an insertion-ordered association list with distinct
  keys (`List (Token × Nat)`); updating an existing key keeps its
  position, a fresh key is appended at the end.
* The Python set `_ignorewords` is a `List Token` used only through
  membership.
* `sorted(..., key=lambda x: x[1])` is a stable sort keyed on the count.
  A stable sort's output is uniquely determined by the key order and the
  input order, so we model it with `List.insertionSort` on the count
  order `countLe` (Mathlib's insertion sort is stable, see
  `List.sublist_insertionSort`), which is structurally recursive and
  hence kernel-evaluable.
* `mincount`/`maxcount` are Python ints, modelled as `Int`.
* Exceptions are modelled with `Except PyErr`.
-/

namespace Occurrences

abbrev Token := String

/-- A Python dict mapping tokens to counts, in insertion order. -/
abbrev DocumentCount := List (Token × Nat)

/-! ### The `wordfinder` regex

`wordfinder = re.compile(r'\b([A-Za-z][\w\-\.]{2,60})\b')`

`finditer` scans left to right, trying the pattern at each position and
resuming after each (non-overlapping) match.  `\b` holds between two
positions exactly when one side is a word character (`\w`) and the other
is not (ends of the string count as non-word).  The quantifier
`{2,60}` is greedy: it first consumes `min 60 (length of the run of
class characters)` characters and then backtracks one character at a
time (never below 2) until the final `\b` holds.
-/

/-- ASCII model of the `re` class `\w`: letters, digits, underscore. -/
def isWordChar (c : Char) : Bool := c.isAlpha || c.isDigit || c == '_'

/-- The character class `[\w\-\.]` of `wordfinder`. -/
def isTokenChar (c : Char) : Bool := isWordChar c || c == '-' || c == '.'

/-- Word-character test for an optional character; positions outside the
string count as non-word, which is how `\b` treats the string ends. -/
def wcharOpt : Option Char → Bool
  | some c => isWordChar c
  | none => false

/-- Length of the maximal prefix made of `[\w\-\.]` characters. -/
def classRun : List Char → Nat
  | [] => 0
  | c :: cs => if isTokenChar c then classRun cs + 1 else 0

/-- Does `\b` hold after consuming `k` characters of `cs` (i.e. between
`cs[k-1]` and `cs[k]`)?  Used for the final `\b` of `wordfinder`. -/
def endBoundary (cs : List Char) (k : Nat) : Bool :=
  wcharOpt cs[k-1]? != wcharOpt cs[k]?

/-- Greedy backtracking for `[\w\-\.]{2,60}\b`: starting from the given
candidate length, decrease until the final `\b` holds; fail below 2.
The initial call passes `min 60 (classRun cs)`, so every candidate
length consists of class characters. -/
def findLen (cs : List Char) : Nat → Option Nat
  | 0 => none
  | 1 => none
  | k + 2 => if endBoundary cs (k + 2) then some (k + 2) else findLen cs (k + 1)

/-- One left-to-right scan of `finditer(wordfinder, text)`.  `prev` is
the character before the current position (`none` at the start), so the
leading `\b` before the `[A-Za-z]` head amounts to `prev` not being a
word character.  `fuel` bounds the recursion depth; every step consumes
at least one character, so `length + 1` is always enough. -/
def scanAux : Nat → Option Char → List Char → List Token
  | 0, _, _ => []
  | _, _, [] => []
  | fuel + 1, prev, c :: rest =>
    if !wcharOpt prev && c.isAlpha then
      match findLen rest (min 60 (classRun rest)) with
      | some k => String.mk (c :: rest.take k) :: scanAux fuel rest[k-1]? (rest.drop k)
      | none => scanAux fuel (some c) rest
    else scanAux fuel (some c) rest

/-- All matches of `wordfinder` in `s`, in order: the token stream the
program derives from a text block. -/
def tokenize (s : String) : List Token :=
  scanAux (s.data.length + 1) none s.data

/-! ### Dictionaries and the ignore set -/

/-- Key lookup in a Python dict (`word in d` / `d[word]`). -/
def lookupC : DocumentCount → Token → Option Nat
  | [], _ => none
  | (k, v) :: rest, w => if k = w then some v else lookupC rest w

/-- `word in worddict` for a dict. -/
def hasKey (d : DocumentCount) (w : Token) : Bool := (lookupC d w).isSome

/-- `d[word]` defaulting to 0 when absent (the code only reads counts of
present keys; the default is never exercised there). -/
def lookupCount (d : DocumentCount) (w : Token) : Nat := (lookupC d w).getD 0

/-- `worddict[w] += 1` if present else `worddict[w] = 1`: an existing
key keeps its position, a new key is appended. -/
def bumpWord : DocumentCount → Token → DocumentCount
  | [], w => [(w, 1)]
  | (k, v) :: rest, w => if k = w then (k, v + 1) :: rest else (k, v) :: bumpWord rest w

/-- The loop body of `DocumentAnalyser.__count_occurrences` over an
already-tokenized stream: skip words in the ignore set, count the
others. -/
def countTokens (ignorewords : List Token) (ws : List Token) : DocumentCount :=
  ws.foldl (fun d w => if w ∈ ignorewords then d else bumpWord d w) []

/-- `DocumentAnalyser.__count_occurrences`: build one document's
word-count dict from its text. -/
def countOccurrences (ignorewords : List Token) (textdata : String) : DocumentCount :=
  countTokens ignorewords (tokenize textdata)

/-- `DocumentAnalyser.__add_ignore`: add every token of `textdata` to
the ignore set (duplicates are absorbed by the set). -/
def addIgnore (ig : List Token) (textdata : String) : List Token :=
  (tokenize textdata).foldl (fun s w => if w ∈ s then s else s ++ [w]) ig

/-! ### Constructor plumbing -/

/-- A Python value that is either a single text string or a list of text
strings (the accepted shapes of `checkdocuments` / `ignoredocuments`). -/
inductive TextOrList where
  | txt (s : String)
  | lst (ss : List String)

/-- Python exceptions raised by the modelled code paths. -/
inductive PyErr where
  | nameError (n : String)
  | unboundLocalError (n : String)
  | osError (detail : String)

/-- `DocumentAnalyser.__process_ignore`.  The `None` and single-string
branches are as in the source.  The list branch of the source reads
`for document in checkdocuments: self.__count_occurrences(document)`:
`checkdocuments` is not defined in the method's scope, so evaluating the
`for` raises `NameError("checkdocuments")` before any iteration (and the
statement it would run is `__count_occurrences`, not `__add_ignore`). -/
def processIgnore (ig : List Token) : Option TextOrList → Except PyErr (List Token)
  | none => .ok ig
  | some (.txt s) => .ok (addIgnore ig s)
  | some (.lst _) => .error (.nameError "checkdocuments")

/-- `DocumentAnalyser.__process_check`: `None` contributes nothing, a
single string one document, a list one document per element. -/
def processCheck (ig : List Token) : Option TextOrList → List DocumentCount
  | none => []
  | some (.txt s) => [countOccurrences ig s]
  | some (.lst ss) => ss.map (countOccurrences ig)

/-- Documents of `DocumentAnalyser(checkdocs)` when no `ignoredocuments`
are supplied (`__init__` processes the ignore documents first, here
yielding the empty ignore set, then counts the check documents). -/
def docsOf (checkdocs : List String) : List DocumentCount :=
  processCheck [] (some (.lst checkdocs))

/-! ### find_duplicates -/

/-- The count order used by `sorted(results.items(), key=lambda x:x[1])`. -/
def countLe (a b : Token × Nat) : Prop := a.2 ≤ b.2

instance : DecidableRel countLe := fun a b => Nat.decLe a.2 b.2

instance : IsTotal (Token × Nat) countLe := ⟨fun a b => Nat.le_total a.2 b.2⟩

instance : IsTrans (Token × Nat) countLe := ⟨fun _ _ _ => Nat.le_trans⟩

/-- Python's stable sort by count (see the header note). -/
def sortByCount (l : DocumentCount) : DocumentCount := List.insertionSort countLe l

/-- `value >= self._mincount and value <= self._maxcount`. -/
def inRange (mn mx : Int) (v : Nat) : Bool := decide (mn ≤ (v : Int)) && decide ((v : Int) ≤ mx)

/-- The dict comprehension of the single-document branch: keep entries
whose count lies in `[mincount, maxcount]`. -/
def filterRange (mn mx : Int) (l : DocumentCount) : DocumentCount :=
  l.filter (fun p => inRange mn mx p.2)

/-- The `results` dict built by the multi-document loop of
`find_duplicates`, in the iteration order of document 0: for each word
of document 0, if every other document contains it, total its counts
over documents 1.. plus `firstcount`, and keep it when the total is in
range. -/
def rawResults (d0 : DocumentCount) (rest : List DocumentCount) (mn mx : Int) : DocumentCount :=
  d0.filterMap (fun p =>
    if rest.all (fun d => hasKey d p.1) then
      let wordcount := (rest.map (fun d => lookupCount d p.1)).sum + p.2
      if inRange mn mx wordcount then some (p.1, wordcount) else none
    else none)

/-- `DocumentAnalyser.find_duplicates`: `None` for zero documents; for a
single document its dict sorted by count then range-filtered; otherwise
the aggregated `results` dict sorted by count. -/
def find_duplicates (docs : List DocumentCount) (mn mx : Int) : Option DocumentCount :=
  match docs with
  | [] => none
  | [d] => some (filterRange mn mx (sortByCount d))
  | d0 :: rest => some (sortByCount (rawResults d0 rest mn mx))

/-! ### display_results -/

/-- `f-string` formatting `f'{key:<32} {value}'`: the token left
justified in a field of minimum width 32 (padded on the right with
spaces, never truncated), a space, then the count. -/
def formatLine (k : Token) (v : Nat) : String :=
  k ++ String.mk (List.replicate (32 - k.length) ' ') ++ " " ++ toString v

/-- `DocumentAnalyser.display_results` as the list of printed lines. -/
def display_results (docs : List DocumentCount) (mn mx : Int) : List String :=
  match find_duplicates docs mn mx with
  | none => ["No results found"]
  | some r => r.map (fun p => formatLine p.1 p.2)

/-- Modelled from the spec's words for comparison (claim C9): the token
left-padded or truncated to a field of exactly 32 characters, a space,
then the count. -/
def formatLineSpecPadTrunc (k : Token) (v : Nat) : String :=
  (k.take 32) ++ String.mk (List.replicate (32 - k.length) ' ') ++ " " ++ toString v

/-! ### load_file -/

/-- State of the file named by the argument of `load_file`. -/
inductive FileStatus where
  | missing
  | unreadable (detail : String)
  | readable (contents : String)

/-- `open(filename, 'r')` followed by `f.read()`: the contents on
success, the `IOError`/`OSError` detail on failure. -/
def tryOpen : FileStatus → Except PyErr String
  | .readable s => .ok s
  | .unreadable d => .error (.osError d)
  | .missing => .error (.osError "No such file or directory")

/-- `load_file`.  The `os.path.isfile` guard prints and returns `''`.
Otherwise `try: f = open(...)`: on failure the `except` clauses print
the error detail and a `return ''` becomes pending; on success the
`else` clause reads the contents.  The `finally` clause always runs
`f.close()` before the function returns: when `open` failed the local
`f` was never bound, so `f.close()` raises
`UnboundLocalError("f")`, which replaces the pending `return ''`. -/
def load_file (fs : FileStatus) : Except PyErr String :=
  match fs with
  | .missing => .ok ""
  | _ =>
    let fLocal : Option String := match tryOpen fs with
      | .ok s => some s
      | .error _ => none
    let pending : Except PyErr String := match tryOpen fs with
      | .ok s => .ok s
      | .error _ => .ok ""
    match fLocal with
    | none => .error (.unboundLocalError "f")
    | some _ => pending

/-! ### Helper lemmas -/

theorem sorted_sortByCount (l : DocumentCount) : (sortByCount l).Pairwise countLe :=
  List.sorted_insertionSort countLe l

theorem mem_sortByCount {a : Token × Nat} {l : DocumentCount} :
    a ∈ sortByCount l ↔ a ∈ l :=
  (List.perm_insertionSort countLe l).mem_iff

/-- Stability of the modelled sort: filtering the sorted list down to one
count value gives the same list as filtering the input, i.e. entries with
equal counts keep their input order. -/
theorem filter_sortByCount (l : DocumentCount) (c : Nat) :
    (sortByCount l).filter (fun p => p.2 == c) = l.filter (fun p => p.2 == c) := by
  have hpw : (l.filter (fun p => p.2 == c)).Pairwise countLe := by
    apply List.pairwise_of_forall_mem_list
    intro a ha b hb
    have ha' := (List.mem_filter.mp ha).2
    have hb' := (List.mem_filter.mp hb).2
    simp only [beq_iff_eq] at ha' hb'
    simp [countLe, ha', hb']
  have hsub : List.Sublist (l.filter (fun p => p.2 == c)) (sortByCount l) :=
    List.sublist_insertionSort hpw (List.filter_sublist l)
  have hsub2 := hsub.filter (fun p => p.2 == c)
  rw [List.filter_eq_self.mpr (fun a ha => (List.mem_filter.mp ha).2)] at hsub2
  have hperm : List.Perm ((sortByCount l).filter (fun p => p.2 == c))
      (l.filter (fun p => p.2 == c)) :=
    (List.perm_insertionSort countLe l).filter _
  exact (hsub2.eq_of_length hperm.length_eq.symm).symm

theorem lookupC_eq_some_of_mem {d : DocumentCount} (hnd : (d.map Prod.fst).Nodup)
    {t : Token} {c : Nat} (h : (t, c) ∈ d) : lookupC d t = some c := by
  induction d with
  | nil => cases h
  | cons p rest ih =>
    obtain ⟨k, v⟩ := p
    rcases List.mem_cons.mp h with h | h
    · rw [Prod.mk.injEq] at h
      obtain ⟨h1, h2⟩ := h
      subst h1
      subst h2
      simp [lookupC]
    · have hk : k ≠ t := by
        intro he
        exact (List.nodup_cons.mp hnd).1 (List.mem_map.mpr ⟨(t, c), h, he.symm⟩)
      simp only [lookupC, if_neg hk]
      exact ih (List.nodup_cons.mp hnd).2 h

theorem mem_of_lookupC_eq_some {d : DocumentCount} {t : Token} {c : Nat}
    (h : lookupC d t = some c) : (t, c) ∈ d := by
  induction d with
  | nil => simp [lookupC] at h
  | cons p rest ih =>
    obtain ⟨k, v⟩ := p
    by_cases hk : k = t
    · subst hk
      simp [lookupC] at h
      subst h
      exact List.mem_cons_self _ _
    · simp only [lookupC, if_neg hk] at h
      exact List.mem_cons_of_mem _ (ih h)

theorem hasKey_bumpWord_ne (d : DocumentCount) (w t : Token) (hne : t ≠ w) :
    hasKey (bumpWord d w) t = hasKey d t := by
  have hwt : w ≠ t := fun he => hne he.symm
  induction d with
  | nil => simp [bumpWord, hasKey, lookupC, hwt]
  | cons p rest ih =>
    obtain ⟨k, v⟩ := p
    by_cases hk : k = w
    · subst hk
      simp [bumpWord, hasKey, lookupC, hwt]
    · simp only [bumpWord, if_neg hk, hasKey, lookupC]
      by_cases hkt : k = t
      · simp [hkt]
      · simpa [hkt, hasKey] using ih

theorem foldl_count_hasKey (ig : List Token) (t : Token) (ht : t ∈ ig) :
    ∀ (ws : List Token) (acc : DocumentCount), hasKey acc t = false →
      hasKey (ws.foldl (fun d w => if w ∈ ig then d else bumpWord d w) acc) t = false
  | [], _, h => h
  | w :: ws, acc, h => by
    simp only [List.foldl_cons]
    by_cases hw : w ∈ ig
    · rw [if_pos hw]
      exact foldl_count_hasKey ig t ht ws acc h
    · have hne : t ≠ w := fun he => hw (he ▸ ht)
      rw [if_neg hw]
      exact foldl_count_hasKey ig t ht ws (bumpWord acc w)
        (by rw [hasKey_bumpWord_ne _ _ _ hne]; exact h)

/-! ### Claims -/

/-- Claim C3: for an analyser built from exactly one document,
`find_duplicates` returns that document's token-count mapping restricted to
entries whose count lies in `[mincount, maxcount]` (as a permutation, i.e.
the same entries), ordered ascending by count, and no entry outside the
range appears. -/
theorem find_duplicates_single (d : DocumentCount) (mn mx : Int) :
    ∃ r, find_duplicates [d] mn mx = some r ∧
      r.Perm (d.filter (fun p => inRange mn mx p.2)) ∧
      r.Pairwise countLe ∧
      ∀ p ∈ r, inRange mn mx p.2 = true := by
  refine ⟨filterRange mn mx (sortByCount d), rfl, ?_, ?_, ?_⟩
  · exact (List.perm_insertionSort countLe d).filter _
  · exact (sorted_sortByCount d).filter _
  · intro p hp
    exact (List.mem_filter.mp hp).2

/-- Claim C4: `find_duplicates` returns the distinguished "no result" signal
(`none`) exactly when the analyser holds zero documents; for disjoint
vocabularies such as `["apple", "banana"]` it returns the empty mapping
`some []`, distinct from `none`. -/
theorem find_duplicates_none_iff (docs : List DocumentCount) (mn mx : Int) :
    (find_duplicates docs mn mx = none ↔ docs = []) ∧
      find_duplicates (docsOf ["apple", "banana"]) 1 256 = some [] := by
  constructor
  · cases docs with
    | nil => simp [find_duplicates]
    | cons d0 rest => cases rest <;> simp [find_duplicates]
  · decide

/-- Claim C6 (code bug): passing a list of ignore text blocks does not union
their tokens into the ignore set; the list branch of `__process_ignore`
iterates the undefined name `checkdocuments`, so the constructor raises
`NameError("checkdocuments")` for every list, even the empty one. -/
theorem processIgnore_list_raises (ig : List Token) (blocks : List String) :
    processIgnore ig (some (TextOrList.lst blocks)) =
      .error (.nameError "checkdocuments") := rfl

/-- Claim C7 (code bug): for a file that exists but cannot be opened,
`load_file` does not return the empty text block: after the `except` clause
prints the error, the `finally` clause evaluates `f.close()` with the local
`f` unbound, so `load_file` raises `UnboundLocalError("f")` (which no caller
catches) instead of returning `''`. -/
theorem load_file_unreadable_raises (detail : String) :
    load_file (FileStatus.unreadable detail) =
      .error (.unboundLocalError "f") := rfl

/-- Claim C8, counterexample: a token is at least three characters long, so
`"a"` is never produced by the tokenizer; for documents
`["a a a", "a a"]` with `mincount = 4`, `maxcount = 256` the result is the
empty mapping and `("a", 5)` is not in it. -/
theorem find_duplicates_single_letter_counterexample :
    find_duplicates (docsOf ["a a a", "a a"]) 4 256 = some [] ∧
      ¬ (("a", 5) ∈ (find_duplicates (docsOf ["a a a", "a a"]) 4 256).getD []) := by
  decide

/-- Claim C8, amended: with three-character tokens the scenario behaves as
described: for documents `["abc abc abc", "abc abc"]` with `mincount = 4`
and `maxcount = 256`, `find_duplicates` returns `{"abc": 5}` (present in
both documents, total 5); with `maxcount = 4` the token is excluded. -/
theorem find_duplicates_scenario_amended :
    find_duplicates (docsOf ["abc abc abc", "abc abc"]) 4 256 = some [("abc", 5)] ∧
      find_duplicates (docsOf ["abc abc abc", "abc abc"]) 4 4 = some [] := by
  decide

/-- Claim C10: when `mincount > maxcount` and the analyser holds at least
one document, `find_duplicates` returns the empty mapping. -/
theorem find_duplicates_empty_of_min_gt_max (docs : List DocumentCount) (mn mx : Int)
    (hne : docs ≠ []) (hlt : mx < mn) :
    find_duplicates docs mn mx = some [] := by
  have hfalse : ∀ v : Nat, inRange mn mx v = false := by
    intro v
    simp only [inRange, Bool.and_eq_false_imp, decide_eq_true_eq, decide_eq_false_iff_not]
    intro h1
    omega
  cases docs with
  | nil => exact absurd rfl hne
  | cons d0 rest =>
    cases rest with
    | nil =>
      simp [find_duplicates, filterRange, List.filter_eq_nil_iff, hfalse]
    | cons d1 rs =>
      have hraw : rawResults d0 (d1 :: rs) mn mx = [] := by
        rw [rawResults, List.filterMap_eq_nil_iff]
        intro p _
        by_cases hall : ((d1 :: rs).all fun d => hasKey d p.1) = true
        · simp [hall, hfalse]
        · simp [hall]
      simp [find_duplicates, hraw, sortByCount]

/-- Witness for C10 at a concrete analyser. -/
theorem find_duplicates_empty_of_min_gt_max_witness :
    find_duplicates [[(("abc" : Token), 1)]] 5 2 = some [] :=
  find_duplicates_empty_of_min_gt_max [[("abc", 1)]] 5 2 (by decide) (by decide)

/-- The aggregation function of `rawResults` rewritten as a single guard:
the nested `if`s with the `wordcount` binding amount to producing the
entry exactly when both conditions hold. -/
theorem rawResults_fn_eq (rest : List DocumentCount) (mn mx : Int) (p : Token × Nat) :
    (if rest.all (fun d => hasKey d p.1) then
       let wordcount := (rest.map (fun d => lookupCount d p.1)).sum + p.2
       if inRange mn mx wordcount then some (p.1, wordcount) else none
     else none)
    = (if (rest.all (fun d => hasKey d p.1)) = true ∧
          inRange mn mx ((rest.map (fun d => lookupCount d p.1)).sum + p.2) = true
       then some (p.1, (rest.map (fun d => lookupCount d p.1)).sum + p.2) else none) := by
  by_cases h1 : (rest.all (fun d => hasKey d p.1)) = true <;>
    by_cases h2 : inRange mn mx ((rest.map (fun d => lookupCount d p.1)).sum + p.2) = true <;>
    simp [h1, h2]

theorem rawResults_eq (d0 : DocumentCount) (rest : List DocumentCount) (mn mx : Int) :
    rawResults d0 rest mn mx = d0.filterMap (fun p =>
      if (rest.all (fun d => hasKey d p.1)) = true ∧
         inRange mn mx ((rest.map (fun d => lookupCount d p.1)).sum + p.2) = true
      then some (p.1, (rest.map (fun d => lookupCount d p.1)).sum + p.2) else none) := by
  unfold rawResults
  congr 1
  funext p
  exact rawResults_fn_eq rest mn mx p

/-- Claim C1: for an analyser holding N ≥ 2 documents, a token appears in
the mapping returned by `find_duplicates` iff it is a key in document 1's
mapping, a key in every other document's mapping, and the sum of its counts
across all N documents lies in `[mincount, maxcount]` inclusive; its value
in the result is that sum.  In particular a token absent from document 1's
mapping never appears, even when present in all the others. -/
theorem find_duplicates_multi_mem_iff
    (d0 d1 : DocumentCount) (rs : List DocumentCount) (mn mx : Int) (r : DocumentCount)
    (hnd : (d0.map Prod.fst).Nodup)
    (hfd : find_duplicates (d0 :: d1 :: rs) mn mx = some r) (t : Token) (v : Nat) :
    (t, v) ∈ r ↔
      (hasKey d0 t = true ∧ (∀ d ∈ d1 :: rs, hasKey d t = true) ∧
        v = lookupCount d0 t + ((d1 :: rs).map (fun d => lookupCount d t)).sum ∧
        mn ≤ (v : Int) ∧ (v : Int) ≤ mx) := by
  have hr : sortByCount (rawResults d0 (d1 :: rs) mn mx) = r := by
    simpa only [find_duplicates, Option.some.injEq] using hfd
  subst hr
  rw [mem_sortByCount, rawResults_eq, List.mem_filterMap]
  constructor
  · rintro ⟨⟨t0, c0⟩, hmem, hf⟩
    dsimp only at hf
    by_cases hcond : ((d1 :: rs).all fun d => hasKey d t0) = true ∧
        inRange mn mx (((d1 :: rs).map fun d => lookupCount d t0).sum + c0) = true
    · rw [if_pos hcond, Option.some.injEq, Prod.mk.injEq] at hf
      obtain ⟨ht, hv⟩ := hf
      subst ht
      obtain ⟨hall, hin⟩ := hcond
      have hlook : lookupC d0 t0 = some c0 := lookupC_eq_some_of_mem hnd hmem
      have hcnt : lookupCount d0 t0 = c0 := by simp [lookupCount, hlook]
      simp only [inRange, Bool.and_eq_true, decide_eq_true_eq] at hin
      refine ⟨by simp [hasKey, hlook], List.all_eq_true.mp hall, by omega, ?_, ?_⟩
      · rw [← hv]; exact hin.1
      · rw [← hv]; exact hin.2
    · rw [if_neg hcond] at hf
      exact absurd hf (by simp)
  · rintro ⟨hk, hall, hv, h1, h2⟩
    simp only [hasKey] at hk
    obtain ⟨c0, hc0⟩ := Option.isSome_iff_exists.mp hk
    refine ⟨(t, c0), mem_of_lookupC_eq_some hc0, ?_⟩
    have hallb : ((d1 :: rs).all fun d => hasKey d t) = true := List.all_eq_true.mpr hall
    have hcnt : lookupCount d0 t = c0 := by simp [lookupCount, hc0]
    have hvs : ((d1 :: rs).map fun d => lookupCount d t).sum + c0 = v := by omega
    have hin : inRange mn mx (((d1 :: rs).map fun d => lookupCount d t).sum + c0) = true := by
      simp only [inRange, Bool.and_eq_true, decide_eq_true_eq]
      rw [hvs]
      exact ⟨h1, h2⟩
    rw [if_pos ⟨hallb, hin⟩, Option.some.injEq, Prod.mk.injEq]
    exact ⟨rfl, hvs⟩

/-- Witness for C1 at a concrete two-document analyser. -/
theorem find_duplicates_multi_mem_iff_witness :
    (("abc", 5) ∈ ([("abc", 5)] : DocumentCount)) :=
  (find_duplicates_multi_mem_iff [("abc", 3)] [("abc", 2)] [] 4 256 [("abc", 5)]
    (by decide) (by decide) "abc" 5).mpr (by decide)

/-- Claim C2: every mapping returned by `find_duplicates` is in
non-decreasing order of count, and entries with equal counts keep the
relative order of the pre-sort candidate list, which iterates document 1's
mapping in encounter order (the sort is stable and keyed solely on count);
the analogous property holds for the single-document branch. -/
theorem find_duplicates_sorted_stable (mn mx : Int) :
    (∀ docs r, find_duplicates docs mn mx = some r → r.Pairwise countLe) ∧
    (∀ d0 d1 rs r, find_duplicates (d0 :: d1 :: rs) mn mx = some r →
      ∀ c, r.filter (fun p => p.2 == c) =
        (rawResults d0 (d1 :: rs) mn mx).filter (fun p => p.2 == c)) ∧
    (∀ d r, find_duplicates [d] mn mx = some r →
      ∀ c, r.filter (fun p => p.2 == c) =
        (filterRange mn mx d).filter (fun p => p.2 == c)) := by
  refine ⟨?_, ?_, ?_⟩
  · intro docs r h
    match docs with
    | [] => simp [find_duplicates] at h
    | [d] =>
      simp only [find_duplicates, Option.some.injEq] at h
      exact h ▸ (sorted_sortByCount d).filter _
    | d0 :: d1 :: rs =>
      simp only [find_duplicates, Option.some.injEq] at h
      exact h ▸ sorted_sortByCount _
  · intro d0 d1 rs r h c
    simp only [find_duplicates, Option.some.injEq] at h
    subst h
    exact filter_sortByCount _ c
  · intro d r h c
    simp only [find_duplicates, Option.some.injEq] at h
    subst h
    simp only [filterRange]
    rw [List.filter_comm, filter_sortByCount, List.filter_comm]

/-- Witness for C2: a concrete tie between two tokens of equal count keeps
the encounter order of document 1. -/
theorem find_duplicates_sorted_stable_witness :
    ([(("abc" : Token), 3), ("def", 3)].filter (fun p => p.2 == 3)) =
      (rawResults [("abc", 1), ("def", 1)] [[("abc", 2), ("def", 2)]] 1 256).filter
        (fun p => p.2 == 3) :=
  (find_duplicates_sorted_stable 1 256).2.1 [("abc", 1), ("def", 1)] [("abc", 2), ("def", 2)]
    [] [("abc", 3), ("def", 3)] (by decide) 3

/-- Claim C5: a token that is in the ignore set built from an ignore text
never appears as a key of a `DocumentCount` built with that ignore set. -/
theorem ignored_token_never_counted (ignoretext doctext : String) (t : Token)
    (h : t ∈ addIgnore [] ignoretext) :
    hasKey (countOccurrences (addIgnore [] ignoretext) doctext) t = false :=
  foldl_count_hasKey (addIgnore [] ignoretext) t h (tokenize doctext) [] rfl

/-- Witness for C5 at concrete ignore and document texts. -/
theorem ignored_token_never_counted_witness :
    ("alpha" ∈ addIgnore [] "alpha beta") ∧
      hasKey (countOccurrences (addIgnore [] "alpha beta") "alpha gamma") "alpha" = false :=
  ⟨by decide, ignored_token_never_counted "alpha beta" "alpha gamma" "alpha" (by decide)⟩

set_option maxRecDepth 4096 in
/-- Claim C9, counterexample: tokens are not truncated to the 32-character
column.  A valid 33-character token is printed in full, so the line differs
from the pad-or-truncate format the claim describes. -/
theorem display_results_no_truncation_counterexample :
    display_results (docsOf ["abcdefghijklmnopqrstuvwxyzabcdefg"]) 1 256 =
        [formatLine "abcdefghijklmnopqrstuvwxyzabcdefg" 1] ∧
      formatLine "abcdefghijklmnopqrstuvwxyzabcdefg" 1 ≠
        formatLineSpecPadTrunc "abcdefghijklmnopqrstuvwxyzabcdefg" 1 := by
  decide

/-- Claim C9, amended: on "no result" `display_results` emits the single
informational line; otherwise one line per token, the token left justified
and padded on the right with spaces to a minimum field width of 32 (tokens
longer than 32 characters are printed in full, not truncated), followed by
a space and the count; for tokens of at most 32 characters the field is
exactly 32 characters wide. -/
theorem display_results_format (docs : List DocumentCount) (mn mx : Int) :
    (find_duplicates docs mn mx = none → display_results docs mn mx = ["No results found"]) ∧
    (∀ r, find_duplicates docs mn mx = some r →
      display_results docs mn mx =
          r.map (fun p =>
            p.1 ++ String.mk (List.replicate (32 - p.1.length) ' ') ++ " " ++ toString p.2) ∧
        ∀ p ∈ r, p.1.length ≤ 32 →
          (p.1 ++ String.mk (List.replicate (32 - p.1.length) ' ')).length = 32) := by
  constructor
  · intro h
    simp [display_results, h]
  · intro r h
    refine ⟨?_, ?_⟩
    · simp [display_results, h, formatLine]
    · intro p _ hle
      simp only [String.length_append, String.length_mk, List.length_replicate]
      omega

/-- Witness for the amended C9 at a concrete analyser. -/
theorem display_results_format_witness :
    display_results [[(("abc" : Token), 3)]] 1 256 =
      ([(("abc" : Token), 3)]).map (fun p =>
        p.1 ++ String.mk (List.replicate (32 - p.1.length) ' ') ++ " " ++ toString p.2) :=
  ((display_results_format [[("abc", 3)]] 1 256).2 [("abc", 3)] (by decide)).1

end Occurrences
